import Mathlib

/-!
Verification of the fatigue-intervention pipeline of this repository
(`src/main.py` and `src/lib/create_futures.py`).

Modelling conventions:
* `float64` scalars are modelled as exact rationals `ℚ`; a scalar that may be
  NaN is modelled as `Option ℚ` (`none` stands for NaN).  Derived quantities
  that are genuinely irrational (square roots, Fourier spectra) live in `ℝ`,
  with `Option ℝ` for possibly-NaN results.
* a Python function that can raise is modelled as returning `Except String`.
* the in-repository peak/skew algorithms (`_naive_find_peaks`, the fallback
  branch of `_safe_skew`) are embedded; the optional SciPy replacements are
  external libraries outside the repository.
-/

namespace FitbitWS

/-- Sampling period constant of `create_futures.py`:
`DEFAULT_SAMPLE_PERIOD = 1 / 60`. -/
def DEFAULT_SAMPLE_PERIOD : ℚ := 1 / 60

/-- One iteration of the scan loop of `_naive_find_peaks` at interior index
`idx` (`create_futures.py` lines 32-42).  `values[i]` is `values.getD i 0`;
the loop only ever reads indices that are in range, so the default is never
used on the source's executions.  `peaks[-1]` is `peaks.getLastD 0`, and the
mutation `peaks[-1] = idx` is `peaks.dropLast ++ [idx]`. -/
def peaks_step {α : Type} [LinearOrderedField α] (values : List α) (height : α)
    (distance : ℤ) (peaks : List ℕ) (idx : ℕ) : List ℕ :=
  if values.getD idx 0 < height then peaks
  else if values.getD idx 0 ≤ values.getD (idx - 1) 0 ∨
      values.getD idx 0 ≤ values.getD (idx + 1) 0 then peaks
  else if peaks ≠ [] ∧ (idx : ℤ) - (peaks.getLastD 0 : ℤ) < distance then
    if values.getD (peaks.getLastD 0) 0 < values.getD idx 0 then peaks.dropLast ++ [idx]
    else peaks
  else peaks ++ [idx]

/-- `_naive_find_peaks(values, height, distance)` (`create_futures.py` lines
26-43): fewer than 3 samples yield no peaks, otherwise the loop scans the
interior indices `range(1, values.size - 1)`. -/
def naive_find_peaks {α : Type} [LinearOrderedField α] (values : List α)
    (height : α) (distance : ℤ) : List ℕ :=
  if values.length < 3 then []
  else (List.range' 1 (values.length - 2)).foldl (peaks_step values height distance) []

/-- C6: for every numeric sequence of fewer than 3 samples and every height and
distance parameter, the peak detector returns the empty sequence of indices
(and, being a total function, does not fail). -/
theorem claim_C6 (values : List ℚ) (height : ℚ) (distance : ℤ)
    (h : values.length < 3) : naive_find_peaks values height distance = [] := by
  unfold naive_find_peaks
  exact if_pos h

/-- C6 witness: the two-sample sequence `[1, 2]` yields no peaks. -/
theorem claim_C6_witness : naive_find_peaks [(1 : ℚ), 2] 0 1 = [] :=
  claim_C6 [(1 : ℚ), 2] 0 1 (by decide)

/-- C7: when the scan reaches a peak candidate `idx` (value at least `height`
and strictly above both neighbours) that lies closer than `distance` to the
most recently accepted peak `last`, only the taller of the two survives: the
last accepted peak is replaced by `idx` exactly when the candidate's value is
strictly greater, and the candidate is dropped otherwise, so on equal heights
the earlier-accepted peak is kept. -/
theorem claim_C7 (values : List ℚ) (height : ℚ) (distance : ℤ)
    (ps : List ℕ) (last idx : ℕ)
    (hheight : height ≤ values.getD idx 0)
    (hleft : values.getD (idx - 1) 0 < values.getD idx 0)
    (hright : values.getD (idx + 1) 0 < values.getD idx 0)
    (hclose : (idx : ℤ) - (last : ℤ) < distance) :
    peaks_step values height distance (ps ++ [last]) idx =
      if values.getD last 0 < values.getD idx 0 then ps ++ [idx] else ps ++ [last] := by
  unfold peaks_step
  rw [if_neg (not_lt.mpr hheight),
    if_neg (by push_neg; exact ⟨hleft, hright⟩),
    List.getLastD_concat, List.dropLast_concat,
    if_pos ⟨by simp, hclose⟩]

/-- C7 witness: in `[0, 6, 0, 7, 0]` the candidate at index 3 (value 7) is
within `distance = 20` of the accepted peak at index 1 (value 6) and is
taller, so it replaces it. -/
theorem claim_C7_witness :
    peaks_step [(0 : ℚ), 6, 0, 7, 0] 5 20 ([] ++ [1]) 3 =
      if [(0 : ℚ), 6, 0, 7, 0].getD 1 0 < [(0 : ℚ), 6, 0, 7, 0].getD 3 0
      then [] ++ [3] else [] ++ [1] :=
  claim_C7 [(0 : ℚ), 6, 0, 7, 0] 5 20 [] 1 3 (by decide) (by decide) (by decide)
    (by decide)

/-- Property of the indices the scan loop of `_naive_find_peaks` accepts as
candidates: value at least `height` and strictly above both neighbours. -/
def peak_cand {α : Type} [LinearOrderedField α] (values : List α) (height : α)
    (i : ℕ) : Prop :=
  height ≤ values.getD i 0 ∧ values.getD (i - 1) 0 < values.getD i 0 ∧
    values.getD (i + 1) 0 < values.getD i 0

/-- Invariant of the scan loop of `_naive_find_peaks` after all indices below
`bound` have been processed: the accepted list is strictly increasing, every
accepted index is an interior candidate below `bound`, and consecutive
accepted indices are at least `distance` apart. -/
def peaks_inv {α : Type} [LinearOrderedField α] (values : List α) (height : α)
    (distance : ℤ) (bound : ℕ) (ps : List ℕ) : Prop :=
  List.Chain' (· < ·) ps ∧
    (∀ i ∈ ps, 1 ≤ i ∧ i ≤ values.length - 2 ∧ i < bound ∧ peak_cand values height i) ∧
    List.Chain' (fun (a b : ℕ) => distance ≤ (b : ℤ) - (a : ℤ)) ps

lemma peaks_inv_mono {α : Type} [LinearOrderedField α] {values : List α} {height : α}
    {distance : ℤ} {bound bound2 : ℕ} {ps : List ℕ}
    (h : peaks_inv values height distance bound ps) (hb : bound ≤ bound2) :
    peaks_inv values height distance bound2 ps :=
  ⟨h.1, fun i hi => ⟨(h.2.1 i hi).1, (h.2.1 i hi).2.1,
    lt_of_lt_of_le (h.2.1 i hi).2.2.1 hb, (h.2.1 i hi).2.2.2⟩, h.2.2⟩

lemma peaks_inv_append {α : Type} [LinearOrderedField α] {values : List α} {height : α}
    {distance : ℤ} {b : ℕ} {ps : List ℕ}
    (h : peaks_inv values height distance b ps)
    (hb1 : 1 ≤ b) (hb2 : b ≤ values.length - 2) (hcand : peak_cand values height b)
    (hlt : ∀ x ∈ ps.getLast?, x < b)
    (hgap : ∀ x ∈ ps.getLast?, distance ≤ (b : ℤ) - (x : ℤ)) :
    peaks_inv values height distance (b + 1) (ps ++ [b]) := by
  obtain ⟨hchain, hmem, hgapc⟩ := h
  refine ⟨?_, ?_, ?_⟩
  · rw [List.chain'_append]
    refine ⟨hchain, List.chain'_singleton b, fun x hx y hy => ?_⟩
    simp only [List.head?_cons, Option.mem_some_iff] at hy
    subst hy
    exact hlt x hx
  · intro i hi
    rcases List.mem_append.mp hi with hi | hi
    · exact ⟨(hmem i hi).1, (hmem i hi).2.1,
        Nat.lt_succ_of_lt (hmem i hi).2.2.1, (hmem i hi).2.2.2⟩
    · rw [List.mem_singleton.mp hi]
      exact ⟨hb1, hb2, Nat.lt_succ_self b, hcand⟩
  · rw [List.chain'_append]
    refine ⟨hgapc, List.chain'_singleton b, fun x hx y hy => ?_⟩
    simp only [List.head?_cons, Option.mem_some_iff] at hy
    subst hy
    exact hgap x hx

lemma peaks_inv_replace {α : Type} [LinearOrderedField α] {values : List α} {height : α}
    {distance : ℤ} {q : List ℕ} {last b : ℕ}
    (h : peaks_inv values height distance b (q ++ [last]))
    (hb1 : 1 ≤ b) (hb2 : b ≤ values.length - 2) (hcand : peak_cand values height b)
    (hlast : last < b) :
    peaks_inv values height distance (b + 1) (q ++ [b]) := by
  obtain ⟨hchain, hmem, hgap⟩ := h
  rw [List.chain'_append] at hchain hgap
  have hq : peaks_inv values height distance b q :=
    ⟨hchain.1, fun i hi => hmem i (List.mem_append_left _ hi), hgap.1⟩
  refine peaks_inv_append hq hb1 hb2 hcand (fun x hx => ?_) (fun x hx => ?_)
  · have hxl : x < last := hchain.2.2 x hx last (by simp)
    omega
  · have h1 : distance ≤ (last : ℤ) - (x : ℤ) := hgap.2.2 x hx last (by simp)
    omega

lemma peaks_step_inv {α : Type} [LinearOrderedField α] (values : List α) (height : α)
    (distance : ℤ) (bound : ℕ) (ps : List ℕ)
    (h : peaks_inv values height distance bound ps)
    (hb1 : 1 ≤ bound) (hb2 : bound ≤ values.length - 2) :
    peaks_inv values height distance (bound + 1)
      (peaks_step values height distance ps bound) := by
  by_cases h1 : values.getD bound 0 < height
  · rw [peaks_step, if_pos h1]
    exact peaks_inv_mono h (Nat.le_succ _)
  by_cases h2 : values.getD bound 0 ≤ values.getD (bound - 1) 0 ∨
      values.getD bound 0 ≤ values.getD (bound + 1) 0
  · rw [peaks_step, if_neg h1, if_pos h2]
    exact peaks_inv_mono h (Nat.le_succ _)
  push_neg at h2
  have hcand : peak_cand values height bound := ⟨not_lt.mp h1, h2.1, h2.2⟩
  by_cases h3 : ps ≠ [] ∧ (bound : ℤ) - (ps.getLastD 0 : ℤ) < distance
  · obtain ⟨hne, hclose⟩ := h3
    rcases List.eq_nil_or_concat ps with rfl | ⟨q, last, hps⟩
    · exact absurd rfl hne
    rw [List.concat_eq_append] at hps
    subst hps
    rw [peaks_step, if_neg h1, if_neg (by push_neg; exact h2),
      if_pos ⟨hne, hclose⟩, List.getLastD_concat, List.dropLast_concat]
    have hlast : last < bound :=
      (h.2.1 last (List.mem_append_right _ (List.mem_singleton_self last))).2.2.1
    by_cases h4 : values.getD last 0 < values.getD bound 0
    · rw [if_pos h4]
      exact peaks_inv_replace h hb1 hb2 hcand hlast
    · rw [if_neg h4]
      exact peaks_inv_mono h (Nat.le_succ _)
  · rw [peaks_step, if_neg h1, if_neg (by push_neg; exact h2), if_neg h3]
    refine peaks_inv_append h hb1 hb2 hcand (fun x hx => ?_) (fun x hx => ?_)
    · have hxmem : x ∈ ps := by
        rw [← List.dropLast_append_getLast? x hx]
        exact List.mem_append_right _ (List.mem_singleton_self x)
      exact (h.2.1 x hxmem).2.2.1
    · have hne : ps ≠ [] := by
        intro hnil
        rw [hnil] at hx
        exact Option.not_mem_none x hx
      have hld : ps.getLastD 0 = x := by
        rw [List.getLastD_eq_getLast?, Option.mem_def.mp hx]
        rfl
      rw [not_and, not_lt] at h3
      have := h3 hne
      rw [hld] at this
      exact this

lemma peaks_fold_inv {α : Type} [LinearOrderedField α] (values : List α) (height : α)
    (distance : ℤ) :
    ∀ (m s : ℕ) (ps : List ℕ), peaks_inv values height distance s ps → 1 ≤ s →
      s + m ≤ values.length - 1 →
      peaks_inv values height distance (s + m)
        ((List.range' s m).foldl (peaks_step values height distance) ps)
  | 0, s, ps, h, _, _ => by simpa using h
  | m + 1, s, ps, h, hs1, hs2 => by
    rw [List.range'_succ, List.foldl_cons]
    have hstep := peaks_step_inv values height distance s ps h hs1 (by omega)
    have := peaks_fold_inv values height distance m (s + 1)
      (peaks_step values height distance ps s) hstep (by omega) (by omega)
    rw [show s + (m + 1) = s + 1 + m by omega]
    exact this

/-- C10: for every input sequence, height and distance, the output of the
naive peak detector is strictly increasing; every returned index `i` satisfies
`1 ≤ i ≤ n - 2`, its value is at least `height` and strictly greater than both
immediate neighbours; and any two consecutive returned indices differ by at
least `distance`. -/
theorem claim_C10 (values : List ℚ) (height : ℚ) (distance : ℤ) :
    List.Chain' (· < ·) (naive_find_peaks values height distance) ∧
      (∀ i ∈ naive_find_peaks values height distance,
        (1 ≤ i ∧ i ≤ values.length - 2) ∧
          height ≤ values.getD i 0 ∧ values.getD (i - 1) 0 < values.getD i 0 ∧
            values.getD (i + 1) 0 < values.getD i 0) ∧
      List.Chain' (fun (a b : ℕ) => distance ≤ (b : ℤ) - (a : ℤ))
        (naive_find_peaks values height distance) := by
  by_cases h : values.length < 3
  · rw [naive_find_peaks, if_pos h]
    exact ⟨List.chain'_nil, by simp, List.chain'_nil⟩
  · rw [naive_find_peaks, if_neg h]
    have hinv := peaks_fold_inv values height distance (values.length - 2) 1 []
      ⟨List.chain'_nil, by simp, List.chain'_nil⟩ le_rfl (by omega)
    exact ⟨hinv.1, fun i hi => ⟨⟨(hinv.2.1 i hi).1, (hinv.2.1 i hi).2.1⟩,
      (hinv.2.1 i hi).2.2.2⟩, hinv.2.2⟩

/-- `np.mean(values)` for a NaN-free array. -/
def list_mean (l : List ℚ) : ℚ := l.sum / l.length

/-- `np.std(values, ddof=1) ** 2`: the ddof=1 sample variance
`Σ (x - mean)² / (n - 1)` (`_safe_skew`, `create_futures.py` line 60). -/
def sample_var (l : List ℚ) : ℚ :=
  (l.map (fun x => (x - list_mean l) ^ 2)).sum / ((l.length : ℚ) - 1)

/-- `m3 = np.mean(centered ** 3)` (`create_futures.py` line 65). -/
def centered_cube_mean (l : List ℚ) : ℚ :=
  (l.map (fun x => (x - list_mean l) ^ 3)).sum / (l.length : ℚ)

/-- `std = np.std(values, ddof=1)`.  Over exact rationals the variance is an
exact nonnegative rational whenever `n ≥ 3`, so the source's `np.isnan(std)`
disjunct can never fire there. -/
noncomputable def sample_std (l : List ℚ) : ℝ := Real.sqrt ((sample_var l : ℚ) : ℝ)

/-- `_safe_skew(values)` (`create_futures.py` lines 53-68), fallback branch:
fewer than 3 samples give NaN; a zero (or NaN) standard deviation gives 0;
otherwise the bias-corrected sample skewness
`sqrt(n(n-1))/(n-2) * (m3 / std³)`. -/
noncomputable def safe_skew (l : List ℚ) : Option ℝ :=
  if l.length < 3 then none
  else if sample_std l = 0 then some 0
  else some ((Real.sqrt ((l.length : ℝ) * ((l.length : ℝ) - 1)) / ((l.length : ℝ) - 2)) *
    ((centered_cube_mean l : ℝ) / sample_std l ^ 3))

/-- C8: the skewness estimator returns NaN for fewer than 3 samples; returns
exactly 0 when the ddof=1 sample standard deviation is zero (over exact
rationals the "undefined std" disjunct of the source cannot fire, and a zero
std is exactly a zero variance); and otherwise returns the mean of cubed
deviations divided by the cube of the ddof=1 sample standard deviation, times
the correction factor `sqrt(n(n-1))/(n-2)`. -/
theorem claim_C8 (l : List ℚ) :
    safe_skew l =
      if l.length < 3 then none
      else if sample_var l = 0 then some 0
      else some ((Real.sqrt ((l.length : ℝ) * ((l.length : ℝ) - 1)) / ((l.length : ℝ) - 2)) *
        ((centered_cube_mean l : ℝ) / Real.sqrt ((sample_var l : ℚ) : ℝ) ^ 3)) := by
  unfold safe_skew
  by_cases h3 : l.length < 3
  · rw [if_pos h3, if_pos h3]
  have hnn : (0 : ℚ) ≤ sample_var l := by
    unfold sample_var
    apply div_nonneg
    · apply List.sum_nonneg
      intro x hx
      simp only [List.mem_map] at hx
      obtain ⟨y, _, rfl⟩ := hx
      positivity
    · have hlen : 3 ≤ l.length := not_lt.mp h3
      have hlen2 : (3 : ℚ) ≤ (l.length : ℚ) := by exact_mod_cast hlen
      linarith
  have hstd : sample_std l = 0 ↔ sample_var l = 0 := by
    unfold sample_std
    rw [Real.sqrt_eq_zero (by exact_mod_cast hnn)]
    exact_mod_cast Iff.rfl
  by_cases hz : sample_var l = 0
  · rw [if_neg h3, if_pos (hstd.mpr hz), if_neg h3, if_pos hz]
  · rw [if_neg h3, if_neg (fun hc => hz (hstd.mp hc)), if_neg h3, if_neg hz]
    rfl

/-- Demeaned signal `signal = xyz - np.nanmean(xyz)` (`create_futures.py`
line 100; the `xyz` magnitudes are NaN-free, so `nanmean` is the mean). -/
noncomputable def demeaned (xyz : List ℝ) : List ℝ :=
  xyz.map (fun x => x - xyz.sum / xyz.length)

/-- `np.fft.rfft(signal)[k] = Σ_j signal[j]·exp(-2πi·j·k/n)`. -/
noncomputable def rfft_coeff (signal : List ℝ) (k : ℕ) : ℂ :=
  ∑ j ∈ Finset.range signal.length,
    (signal.getD j 0 : ℂ) *
      Complex.exp (-(2 * Real.pi * Complex.I) * (j : ℂ) * (k : ℂ) / (signal.length : ℂ))

/-- `power = np.abs(spectrum) ** 2` per bin. -/
noncomputable def rfft_power (signal : List ℝ) (k : ℕ) : ℝ :=
  Complex.abs (rfft_coeff signal k) ^ 2

/-- `np.fft.rfftfreq(n, d)[k] = k / (n·d)`, an exact rational for a rational
sampling period. -/
def rfft_freq (n : ℕ) (d : ℚ) (k : ℕ) : ℚ := (k : ℚ) / ((n : ℚ) * d)

/-- `total_power = np.sum(power)` over the `n/2 + 1` rfft bins; demeaning
preserves the length, so the bin count is written over `xyz.length`. -/
noncomputable def total_power (xyz : List ℝ) : ℝ :=
  ∑ k ∈ Finset.range (xyz.length / 2 + 1), rfft_power (demeaned xyz) k

/-- `low_power`: power summed over bins with `0.5 ≤ freq < 1.5` Hz.  The
source's `if np.any(low_mask) ... else 0.0` agrees with this sum because a sum
over no bins is 0. -/
noncomputable def low_band_power (xyz : List ℝ) (d : ℚ) : ℝ :=
  ∑ k ∈ Finset.range (xyz.length / 2 + 1),
    if (0.5 : ℚ) ≤ rfft_freq xyz.length d k ∧ rfft_freq xyz.length d k < (1.5 : ℚ)
    then rfft_power (demeaned xyz) k else 0

/-- `high_power`: power summed over bins with `freq ≥ 2.0` Hz; bins with
`1.5 ≤ freq < 2.0` contribute to neither band. -/
noncomputable def high_band_power (xyz : List ℝ) (d : ℚ) : ℝ :=
  ∑ k ∈ Finset.range (xyz.length / 2 + 1),
    if (2 : ℚ) ≤ rfft_freq xyz.length d k then rfft_power (demeaned xyz) k else 0

/-- `_xyz_high_low_ratio(xyz, sample_period)` (`create_futures.py` lines
96-115). -/
noncomputable def xyz_high_low_ratio (xyz : List ℝ) (d : ℚ) : Option ℝ :=
  if xyz.length < 4 then none
  else if total_power xyz ≤ 0 then none
  else if low_band_power xyz d = 0 then none
  else some (high_band_power xyz d / low_band_power xyz d)

/-- C9: the spectral ratio estimator returns the NaN sentinel exactly when the
signal has fewer than 4 samples, or the total spectral power is ≤ 0, or the
low-band power (bins with frequency in `[0.5, 1.5)` Hz, zero when no bin falls
there) is 0; otherwise it returns the high-band power (bins with frequency
`≥ 2.0` Hz) divided by the low-band power, the division being guarded by the
zero test. -/
theorem claim_C9 (xyz : List ℝ) (d : ℚ) :
    xyz_high_low_ratio xyz d =
      if xyz.length < 4 ∨ total_power xyz ≤ 0 ∨ low_band_power xyz d = 0 then none
      else some (high_band_power xyz d / low_band_power xyz d) := by
  unfold xyz_high_low_ratio
  by_cases h1 : xyz.length < 4
  · rw [if_pos h1, if_pos (Or.inl h1)]
  by_cases h2 : total_power xyz ≤ 0
  · rw [if_neg h1, if_pos h2, if_pos (Or.inr (Or.inl h2))]
  by_cases h3 : low_band_power xyz d = 0
  · rw [if_neg h1, if_neg h2, if_pos h3, if_pos (Or.inr (Or.inr h3))]
  · rw [if_neg h1, if_neg h2, if_neg h3, if_neg (by push_neg; exact ⟨not_lt.mp h1, not_le.mp h2, h3⟩)]

/-- Non-NaN heart-rate entries, in temporal order. -/
def valid_hr (hr : List (Option ℚ)) : List ℚ := hr.filterMap id

/-- `mean_hr = float(np.nanmean(hr_arr))` (`create_futures.py` line 145): the
mean of the non-NaN entries (NaN itself when none exists, a case the
validation guard excludes). -/
noncomputable def mean_hr (hr : List (Option ℚ)) : Option ℝ :=
  if valid_hr hr = [] then none
  else some (((valid_hr hr).sum / (valid_hr hr).length : ℚ) : ℝ)

/-- `max_hr = float(np.nanmax(hr_arr))` (`create_futures.py` line 146). -/
noncomputable def max_hr (hr : List (Option ℚ)) : Option ℝ :=
  ((valid_hr hr).max?).map (fun q => (q : ℝ))

/-- First non-NaN value of `_first_last_valid` (`create_futures.py` line 72). -/
def first_valid (hr : List (Option ℚ)) : Option ℚ := (hr.filterMap id).head?

/-- Last non-NaN value of `_first_last_valid` (`create_futures.py` line 73). -/
def last_valid (hr : List (Option ℚ)) : Option ℚ := (hr.filterMap id).getLast?

/-- `lambda_hr = last - first if not np.isnan(first + last) else nan`
(`create_futures.py` lines 147-150): `first + last` is NaN exactly when one of
the endpoints is. -/
noncomputable def lambda_hr (hr : List (Option ℚ)) : Option ℝ :=
  match first_valid hr, last_valid hr with
  | some f, some l => some ((l - f : ℚ) : ℝ)
  | _, _ => none

/-- `y_values = acc_arr[:, 1]` (`create_futures.py` line 152). -/
def y_axis (acc : List (List ℚ)) : List ℚ := acc.map (fun r => r.getD 1 0)

/-- `_y_peak_mean(y_values)` (`create_futures.py` lines 77-83): NaN on an
empty series or when no peak is found, else the mean value at the detected
peaks (height 5.0, distance 20). -/
def y_peak_mean (y : List ℚ) : Option ℚ :=
  if y = [] then none
  else
    let ps := naive_find_peaks y 5 20
    if ps = [] then none
    else some ((ps.map (fun i => y.getD i 0)).sum / ps.length)

/-- `y_skewness = _safe_skew(y_values)` (`create_futures.py` line 153). -/
noncomputable def y_skewness (acc : List (List ℚ)) : Option ℝ := safe_skew (y_axis acc)

/-- `y_peak = _y_peak_mean(y_values)` (`create_futures.py` line 154). -/
noncomputable def y_peak (acc : List (List ℚ)) : Option ℝ :=
  (y_peak_mean (y_axis acc)).map (fun q => (q : ℝ))

/-- `xyz = np.linalg.norm(acc_arr, axis=1)` (`create_futures.py` line 156):
per-row Euclidean magnitude. -/
noncomputable def xyz_norm (acc : List (List ℚ)) : List ℝ :=
  acc.map (fun r => Real.sqrt ((r.map (fun c => ((c : ℝ)) ^ 2)).sum))

/-- `np.std(intervals, ddof=0)`: population standard deviation. -/
noncomputable def pop_std (l : List ℝ) : ℝ :=
  Real.sqrt ((l.map (fun x => (x - l.sum / l.length) ^ 2)).sum / l.length)

/-- `_xyz_cycle_stats(xyz, sample_period)` (`create_futures.py` lines 86-93):
`(mean, std)` of the inter-peak intervals `np.diff(peaks) * sample_period`,
`(NaN, NaN)` when fewer than 2 peaks are found. -/
noncomputable def xyz_cycle_stats (xyz : List ℝ) (d : ℚ) : Option ℝ × Option ℝ :=
  let ps := naive_find_peaks xyz 5 20
  if ps.length < 2 then (none, none)
  else
    let intervals := (ps.zip ps.tail).map (fun p => ((p.2 : ℝ) - (p.1 : ℝ)) * (d : ℝ))
    if intervals = [] then (none, none)
    else (some (intervals.sum / intervals.length), some (pop_std intervals))

/-- `xyz_cycle_mean` component of `create_features` (`create_futures.py`
line 157). -/
noncomputable def xyz_cycle_mean (acc : List (List ℚ)) (d : ℚ) : Option ℝ :=
  (xyz_cycle_stats (xyz_norm acc) d).1

/-- `xyz_cycle_std` component of `create_features` (`create_futures.py`
line 157). -/
noncomputable def xyz_cycle_std (acc : List (List ℚ)) (d : ℚ) : Option ℝ :=
  (xyz_cycle_stats (xyz_norm acc) d).2

/-- `create_features(heart_rates, accelerations, sample_period)`
(`create_futures.py` lines 118-169).  The first guard models `np.asarray`
raising on a ragged `accelerations` nested sequence (which in the source
happens before the validation checks); the next two guards are the source's
explicit `ValueError`s.  The success branch returns the eight features in the
source's order. -/
noncomputable def create_features (heart_rates : List (Option ℚ))
    (accelerations : List (List ℚ)) (sample_period : ℚ) :
    Except String (List (Option ℝ)) :=
  if ¬ ∀ r ∈ accelerations, r.length = (accelerations.headD []).length then
    Except.error "setting an array element with a sequence"
  else if heart_rates = [] ∨ ∀ v ∈ heart_rates, v = none then
    Except.error "heart_rates must contain at least one valid value."
  else if accelerations = [] ∨ ∃ r ∈ accelerations, r.length ≠ 3 then
    Except.error "accelerations must be an Nx3 sequence of [x, y, z]."
  else
    Except.ok [mean_hr heart_rates, max_hr heart_rates, lambda_hr heart_rates,
      y_skewness accelerations,
      xyz_cycle_std accelerations sample_period,
      xyz_cycle_mean accelerations sample_period,
      y_peak accelerations,
      xyz_high_low_ratio (xyz_norm accelerations) sample_period]

lemma create_features_ok_of (hr : List (Option ℚ)) (acc : List (List ℚ)) (d : ℚ)
    (h1 : hr ≠ []) (h2 : ¬ ∀ v ∈ hr, v = none) (h3 : acc ≠ [])
    (h4 : ∀ r ∈ acc, r.length = 3) :
    create_features hr acc d =
      Except.ok [mean_hr hr, max_hr hr, lambda_hr hr, y_skewness acc,
        xyz_cycle_std acc d, xyz_cycle_mean acc d, y_peak acc,
        xyz_high_low_ratio (xyz_norm acc) d] := by
  have hrect : ∀ r ∈ acc, r.length = (acc.headD []).length := by
    intro r hmem
    rcases acc with _ | ⟨r0, rest⟩
    · exact absurd rfl h3
    · simp only [List.headD_cons]
      rw [h4 r hmem, h4 r0 (List.mem_cons_self r0 rest)]
  rw [create_features, if_neg (not_not_intro hrect),
    if_neg (not_or.mpr ⟨h1, h2⟩),
    if_neg (not_or.mpr ⟨h3, by push_neg; exact h4⟩)]

/-- C4: `create_features` raises a validation failure exactly when the
heart-rate input is empty or all-NaN, or the acceleration input is empty or
not a sequence of 3-component triplets; for every input satisfying both
preconditions it does not raise. -/
theorem claim_C4 (hr : List (Option ℚ)) (acc : List (List ℚ)) (d : ℚ) :
    (∃ e, create_features hr acc d = Except.error e) ↔
      hr = [] ∨ (∀ v ∈ hr, v = none) ∨ acc = [] ∨ ∃ r ∈ acc, r.length ≠ 3 := by
  constructor
  · intro he
    by_contra hcon
    push_neg at hcon
    obtain ⟨hc1, hc2, hc3, hc4⟩ := hcon
    obtain ⟨e, he⟩ := he
    rw [create_features_ok_of hr acc d hc1 (by push_neg; exact hc2) hc3 hc4] at he
    simp at he
  · intro h
    rw [create_features]
    by_cases hrect : ∀ r ∈ acc, r.length = (acc.headD []).length
    · rw [if_neg (not_not_intro hrect)]
      by_cases hhr : hr = [] ∨ ∀ v ∈ hr, v = none
      · rw [if_pos hhr]
        exact ⟨_, rfl⟩
      · rw [if_neg hhr]
        have hacc : acc = [] ∨ ∃ r ∈ acc, r.length ≠ 3 := by
          rcases h with h | h | h | h
          · exact absurd (Or.inl h) hhr
          · exact absurd (Or.inr h) hhr
          · exact Or.inl h
          · exact Or.inr h
        rw [if_pos hacc]
        exact ⟨_, rfl⟩
    · rw [if_pos hrect]
      exact ⟨_, rfl⟩

/-- C5: for every input satisfying the extraction preconditions,
`create_features` returns (without raising) the feature vector of exactly 8
entries in the fixed order `[mean_hr, max_hr, lambda_hr, y_skewness,
xyz_cycle_std, xyz_cycle_mean, y_peak_mean, xyz_high_low_ratio]`; the `Option`
codomain lets any individual entry be the NaN sentinel `none`. -/
theorem claim_C5 (hr : List (Option ℚ)) (acc : List (List ℚ)) (d : ℚ)
    (h1 : hr ≠ []) (h2 : ¬ ∀ v ∈ hr, v = none) (h3 : acc ≠ [])
    (h4 : ∀ r ∈ acc, r.length = 3) :
    create_features hr acc d =
      Except.ok [mean_hr hr, max_hr hr, lambda_hr hr, y_skewness acc,
        xyz_cycle_std acc d, xyz_cycle_mean acc d, y_peak acc,
        xyz_high_low_ratio (xyz_norm acc) d] ∧
    ([mean_hr hr, max_hr hr, lambda_hr hr, y_skewness acc,
      xyz_cycle_std acc d, xyz_cycle_mean acc d, y_peak acc,
      xyz_high_low_ratio (xyz_norm acc) d] : List (Option ℝ)).length = 8 :=
  ⟨create_features_ok_of hr acc d h1 h2 h3 h4, rfl⟩

/-- C5 witness: a one-sample window on each stream satisfies the
preconditions; five of the eight entries of the resulting vector are the NaN
sentinel. -/
theorem claim_C5_witness :
    create_features [some 70] [[1, 2, 3]] DEFAULT_SAMPLE_PERIOD =
      Except.ok [mean_hr [some 70], max_hr [some 70], lambda_hr [some 70],
        y_skewness [[1, 2, 3]], xyz_cycle_std [[1, 2, 3]] DEFAULT_SAMPLE_PERIOD,
        xyz_cycle_mean [[1, 2, 3]] DEFAULT_SAMPLE_PERIOD, y_peak [[1, 2, 3]],
        xyz_high_low_ratio (xyz_norm [[1, 2, 3]]) DEFAULT_SAMPLE_PERIOD] ∧
    ([mean_hr [some 70], max_hr [some 70], lambda_hr [some 70],
      y_skewness [[1, 2, 3]], xyz_cycle_std [[1, 2, 3]] DEFAULT_SAMPLE_PERIOD,
      xyz_cycle_mean [[1, 2, 3]] DEFAULT_SAMPLE_PERIOD, y_peak [[1, 2, 3]],
      xyz_high_low_ratio (xyz_norm [[1, 2, 3]]) DEFAULT_SAMPLE_PERIOD] :
        List (Option ℝ)).length = 8 :=
  claim_C5 [some 70] [[1, 2, 3]] DEFAULT_SAMPLE_PERIOD (by decide) (by decide)
    (by decide) (by decide)

/-- Intervention mode sent over the Android control channel: the source uses
the strings "normal" and "minus10"; `minus10` is the single non-normal
(reduce) mode. -/
inductive Mode
  | normal
  | minus10
deriving DecidableEq

/-- Threshold rule `mode = "normal" if pred_rpe <= 6 else "minus10"`
(`main.py` line 240). -/
def decide_mode (pred_rpe : ℚ) : Mode :=
  if pred_rpe ≤ 6 then Mode.normal else Mode.minus10

/-- Observable outcome of one call of `run_intervention_logic`: the returned
mode ("normal" on the early failure exits), the contents of the two global
buffers when the call ends, and the messages handed to
`android_control_ws.send_json` (at most one; a send failure is swallowed and
leaves no other observable state). -/
structure InterventionResult where
  mode : Mode
  accel_buffer : List (List ℚ)
  hr_buffer : List (Option ℚ)
  sent : List Mode
deriving DecidableEq

/-- `run_intervention_logic()` (`main.py` lines 216-254).  The opaque
classifier `rf_model.predict` is a parameter `predict`; `none` models the
`except` branch (a raised exception), `some r` a returned score.  The
`android_control_ws` global is `true` when a control channel is attached.
Source control flow: a failure in feature extraction or prediction
`return "normal"` immediately — before the send and before the
`accel_buffer.clear()` / `hr_buffer.clear()` lines. -/
noncomputable def run_intervention_logic (predict : List (Option ℝ) → Option ℚ)
    (android_control_ws : Bool) (accel_buffer : List (List ℚ))
    (hr_buffer : List (Option ℚ)) : InterventionResult :=
  match create_features hr_buffer accel_buffer DEFAULT_SAMPLE_PERIOD with
  | Except.error _ => ⟨Mode.normal, accel_buffer, hr_buffer, []⟩
  | Except.ok feats =>
    match predict feats with
    | none => ⟨Mode.normal, accel_buffer, hr_buffer, []⟩
    | some pred_rpe =>
      ⟨decide_mode pred_rpe, [], [],
        if android_control_ws then [decide_mode pred_rpe] else []⟩

lemma run_of_error {p : List (Option ℝ) → Option ℚ} {ws : Bool}
    {ab : List (List ℚ)} {hb : List (Option ℚ)} {e : String}
    (h : create_features hb ab DEFAULT_SAMPLE_PERIOD = Except.error e) :
    run_intervention_logic p ws ab hb = ⟨Mode.normal, ab, hb, []⟩ := by
  simp [run_intervention_logic, h]

lemma run_of_ok_none {p : List (Option ℝ) → Option ℚ} {ws : Bool}
    {ab : List (List ℚ)} {hb : List (Option ℚ)} {f : List (Option ℝ)}
    (hok : create_features hb ab DEFAULT_SAMPLE_PERIOD = Except.ok f)
    (hp : p f = none) :
    run_intervention_logic p ws ab hb = ⟨Mode.normal, ab, hb, []⟩ := by
  simp [run_intervention_logic, hok, hp]

lemma run_of_ok_some {p : List (Option ℝ) → Option ℚ} {ws : Bool}
    {ab : List (List ℚ)} {hb : List (Option ℚ)} {f : List (Option ℝ)} {s : ℚ}
    (hok : create_features hb ab DEFAULT_SAMPLE_PERIOD = Except.ok f)
    (hp : p f = some s) :
    run_intervention_logic p ws ab hb =
      ⟨decide_mode s, [], [], if ws then [decide_mode s] else []⟩ := by
  simp [run_intervention_logic, hok, hp]

lemma create_features_nil_hr (d : ℚ) :
    create_features [] [[1, 2, 3]] d =
      Except.error "heart_rates must contain at least one valid value." := by
  rw [create_features, if_neg (by decide), if_pos (by decide)]

lemma create_features_single :
    create_features [some 70] [[1, 2, 3]] DEFAULT_SAMPLE_PERIOD =
      Except.ok [mean_hr [some 70], max_hr [some 70], lambda_hr [some 70],
        y_skewness [[1, 2, 3]], xyz_cycle_std [[1, 2, 3]] DEFAULT_SAMPLE_PERIOD,
        xyz_cycle_mean [[1, 2, 3]] DEFAULT_SAMPLE_PERIOD, y_peak [[1, 2, 3]],
        xyz_high_low_ratio (xyz_norm [[1, 2, 3]]) DEFAULT_SAMPLE_PERIOD] :=
  create_features_ok_of _ _ _ (by decide) (by decide) (by decide) (by decide)

/-- C1 counterexample: the decision cycle triggered with acceleration buffer
`[[1, 2, 3]]` and an empty heart-rate buffer exits early on the extraction
failure, and the acceleration buffer is left non-empty at the end of the
cycle — the claimed unconditional clearing does not happen. -/
theorem claim_C1_counterexample :
    (run_intervention_logic (fun _ => some 0) false [[1, 2, 3]] []).accel_buffer =
        [[1, 2, 3]] ∧
      ((run_intervention_logic (fun _ => some 0) false [[1, 2, 3]] []).accel_buffer).isEmpty =
        false := by
  rw [run_of_error (create_features_nil_hr DEFAULT_SAMPLE_PERIOD)]
  exact ⟨rfl, rfl⟩

/-- C1 (amended): both buffers are cleared to empty by the end of a decision
cycle exactly when feature extraction and the classifier call both succeed; a
cycle that exits early on an extraction or classifier failure leaves both
buffers unchanged (it does not clear them). -/
theorem claim_C1 (predict : List (Option ℝ) → Option ℚ) (ws : Bool)
    (ab : List (List ℚ)) (hb : List (Option ℚ)) :
    (∀ f s, create_features hb ab DEFAULT_SAMPLE_PERIOD = Except.ok f →
      predict f = some s →
      (run_intervention_logic predict ws ab hb).accel_buffer = [] ∧
        (run_intervention_logic predict ws ab hb).hr_buffer = []) ∧
    (∀ e, create_features hb ab DEFAULT_SAMPLE_PERIOD = Except.error e →
      (run_intervention_logic predict ws ab hb).accel_buffer = ab ∧
        (run_intervention_logic predict ws ab hb).hr_buffer = hb) ∧
    (∀ f, create_features hb ab DEFAULT_SAMPLE_PERIOD = Except.ok f →
      predict f = none →
      (run_intervention_logic predict ws ab hb).accel_buffer = ab ∧
        (run_intervention_logic predict ws ab hb).hr_buffer = hb) := by
  refine ⟨fun f s hok hp => ?_, fun e he => ?_, fun f hok hp => ?_⟩
  · rw [run_of_ok_some hok hp]
    exact ⟨rfl, rfl⟩
  · rw [run_of_error he]
    exact ⟨rfl, rfl⟩
  · rw [run_of_ok_none hok hp]
    exact ⟨rfl, rfl⟩

/-- C2 counterexample: a cycle in which extraction succeeds (witnessed by the
`Except.ok` equation) but the classifier call fails, with a control channel
attached (`true`), dispatches nothing — not the claimed `normal` — though it
does set the decision to `normal`. -/
theorem claim_C2_counterexample :
    (∃ f, create_features [some 70] [[1, 2, 3]] DEFAULT_SAMPLE_PERIOD = Except.ok f) ∧
      (run_intervention_logic (fun _ => none) true [[1, 2, 3]] [some 70]).sent = [] ∧
      (run_intervention_logic (fun _ => none) true [[1, 2, 3]] [some 70]).mode =
        Mode.normal := by
  refine ⟨⟨_, create_features_single⟩, ?_, ?_⟩ <;>
    · rw [run_of_ok_none create_features_single rfl]

/-- C2 (amended): a cycle in which extraction or the classifier call fails
sets the decision to `normal` and terminates without raising, dispatching
nothing whether or not a channel is attached; after an extraction failure the
classifier is never invoked (the outcome is the same for every classifier).
The source's early `return "normal"` also skips the dispatch that the
original claim asserted for an attached channel. -/
theorem claim_C2 (predict : List (Option ℝ) → Option ℚ) (ws : Bool)
    (ab : List (List ℚ)) (hb : List (Option ℚ)) :
    (∀ e, create_features hb ab DEFAULT_SAMPLE_PERIOD = Except.error e →
      run_intervention_logic predict ws ab hb = ⟨Mode.normal, ab, hb, []⟩ ∧
        ∀ predict2, run_intervention_logic predict2 ws ab hb =
          run_intervention_logic predict ws ab hb) ∧
    (∀ f, create_features hb ab DEFAULT_SAMPLE_PERIOD = Except.ok f →
      predict f = none →
      run_intervention_logic predict ws ab hb = ⟨Mode.normal, ab, hb, []⟩) := by
  refine ⟨fun e he => ⟨run_of_error he, fun p2 => ?_⟩,
    fun f hok hp => run_of_ok_none hok hp⟩
  rw [run_of_error he, run_of_error he]

/-- C3: the decided mode is `normal` exactly when the predicted severity score
is ≤ 6 and the reduce mode `minus10` exactly when it is > 6; `minus10` is the
single non-normal mode. -/
theorem claim_C3 (s : ℚ) :
    (decide_mode s = Mode.normal ↔ s ≤ 6) ∧
      (decide_mode s = Mode.minus10 ↔ 6 < s) ∧
      ∀ m : Mode, m = Mode.normal ∨ m = Mode.minus10 := by
  refine ⟨?_, ?_, fun m => by cases m <;> simp⟩
  · by_cases h : s ≤ 6 <;> simp [decide_mode, h]
  · by_cases h : s ≤ 6
    · simp [decide_mode, h, not_lt.mpr h]
    · simp [decide_mode, h, not_le.mp h]

end FitbitWS
